import Mathlib

/-
Verification of the audio-reactive visualizer (src/components/Visualizer.tsx).
The file embeds the renderer logic as executable Lean definitions and proves
the specified properties about them.  Machine numbers of the source are
modelled as rationals, byte arrays as lists of naturals, and the pseudo-random
generator as an explicit stream of rational draws passed in as an argument.
-/

namespace Vajfua

/-! Frequency analyzer (Visualizer.tsx, renderFrame, lines 956-968).
The render loop reads the byte frequency array and folds it into three band
energies: bass over bins 0..9, mid over bins 10..99, high over the rest. -/

structure Bands where
  bass : ℚ
  mid : ℚ
  high : ℚ
deriving DecidableEq

/-- Embeds the band computation of renderFrame: three index-range sums over the
byte frequency array, each normalized by the bin count and by 255. -/
def frequencyBands (data : List ℕ) : Bands :=
  { bass := (((data.take 10).sum : ℚ) / 10) / 255
  , mid := ((((data.drop 10).take 90).sum : ℚ) / 90) / 255
  , high := (((data.drop 100).sum : ℚ) / ((data.length : ℚ) - 100)) / 255 }

/-! Dimension resolver (Visualizer.tsx, getDimensions, lines 760-772). -/

inductive ResTier
  | res1080p
  | res4K
deriving DecidableEq

inductive AspectKind
  | wide16x9
  | tall9x16
deriving DecidableEq

structure ExportConfig where
  resolution : ResTier
  aspect : AspectKind
deriving DecidableEq

/-- Embeds getDimensions: while playing or exporting the fixed export size is
returned (1920x1080, or 3840x2160 for 4K, swapped for the 9:16 aspect);
otherwise the live container size when available, else 1920x1080. -/
def getDimensions (isPlaying isExporting : Bool) (cfg : ExportConfig)
    (container : Option (ℕ × ℕ)) : ℕ × ℕ :=
  if isPlaying || isExporting then
    let wh : ℕ × ℕ :=
      match cfg.resolution with
      | ResTier.res1080p => (1920, 1080)
      | ResTier.res4K => (3840, 2160)
    match cfg.aspect with
    | AspectKind.wide16x9 => wh
    | AspectKind.tall9x16 => (wh.2, wh.1)
  else
    match container with
    | some wh => wh
    | none => (1920, 1080)

/-! Greedy word wrapper (Visualizer.tsx, wrapText, lines 674-691).
JS strings are modelled as lists of characters; the measuring callback of the
canvas context is an abstract width function on such character lists. -/

/-- Loop body of wrapText: fold the remaining words into the current line while
the measured width of the extended line stays below the maximum, otherwise
flush the current line and restart from the word. -/
def wrapAux (mw : List Char → ℚ) (maxWidth : ℚ) (cur : List Char) :
    List (List Char) → List (List Char)
  | [] => [cur]
  | wd :: rest =>
    if mw (cur ++ [' '] ++ wd) < maxWidth then
      wrapAux mw maxWidth (cur ++ [' '] ++ wd) rest
    else
      cur :: wrapAux mw maxWidth wd rest

/-- Embeds wrapText: split the text on spaces, seed the current line with the
first word, then run the greedy loop.  The nil branch is unreachable because
splitting never yields an empty list. -/
def wrapText (mw : List Char → ℚ) (text : List Char) (maxWidth : ℚ) :
    List (List Char) :=
  match text.splitOn ' ' with
  | [] => [[]]
  | wd :: ws => wrapAux mw maxWidth wd ws

/-! Lyric lines and active-line selection (Visualizer.tsx, lines 619-625 and
1116-1141), plus the decoded-character cursor. -/

inductive LyricStyle
  | normal
  | glitch
  | impact
  | soft
deriving DecidableEq

structure LyricLine where
  time : ℚ
  duration : Option ℚ
  text : String
  style : Option LyricStyle
  emoji : Option String
deriving DecidableEq

/-- Embeds the JS expression l.duration or 3.0: the default applies when the
duration is absent, and also when it is 0, because 0 is falsy in JS. -/
def effDuration (l : LyricLine) : ℚ :=
  match l.duration with
  | none => 3
  | some d => if d = 0 then 3 else d

/-- Predicate of the find callback in line 1116: the elapsed time lies in the
half-open display window of the line. -/
def isActive (l : LyricLine) (t : ℚ) : Prop :=
  l.time ≤ t ∧ t < l.time + effDuration l

instance (l : LyricLine) (t : ℚ) : Decidable (isActive l t) :=
  inferInstanceAs (Decidable (l.time ≤ t ∧ t < l.time + effDuration l))

/-- Refinement reading of the spec sentence: a missing duration defaults to 3
seconds, while a present duration is always used as given. -/
def specIsActive (l : LyricLine) (t : ℚ) : Prop :=
  l.time ≤ t ∧ t < l.time + l.duration.getD 3

instance (l : LyricLine) (t : ℚ) : Decidable (specIsActive l t) :=
  inferInstanceAs (Decidable (l.time ≤ t ∧ t < l.time + l.duration.getD 3))

/-- Embeds lyrics.find combined with lyrics.indexOf: the first line in sequence
order whose display window contains the elapsed time, with its index. -/
def findActive (ls : List LyricLine) (t : ℚ) : Option (ℕ × LyricLine) :=
  match ls with
  | [] => none
  | l :: rest =>
    if isActive l t then some (0, l)
    else (findActive rest t).map (fun p => (p.1 + 1, p.2))

/-- The lyric cursor held across ticks: the index of the line displayed last
tick (-1 initially) and the decoded-character counter. -/
structure LyricCursor where
  idx : ℤ
  decoded : ℚ
deriving DecidableEq

/-- Embeds the lyric section of renderFrame (lines 1116-1131): when an active
line is found, reset the counter on an index change, then advance it by 1.5
while it is below the text length; when no line is active nothing changes. -/
def lyricStep (ls : List LyricLine) (t : ℚ) (s : LyricCursor) : LyricCursor :=
  match findActive ls t with
  | none => s
  | some (i, l) =>
    let s1 := if s.idx = (i : ℤ) then s else { idx := (i : ℤ), decoded := 0 }
    if s1.decoded < (l.text.length : ℚ) then
      { s1 with decoded := s1.decoded + 3 / 2 }
    else s1

/-! Particle system (Visualizer.tsx, lines 1082-1113). -/

inductive ParticleKind
  | rect
  | emoji
deriving DecidableEq

structure Particle where
  x : ℚ
  y : ℚ
  w : ℚ
  h : ℚ
  vx : ℚ
  vy : ℚ
  life : ℚ
  color : String
  kind : ParticleKind
  glyph : Option String
deriving DecidableEq

/-- Per-tick mutation of one particle: position advances by the velocity and
the life decays by the fixed step 0.03. -/
def stepParticle (p : Particle) : Particle :=
  { p with x := p.x + p.vx, y := p.y + p.vy, life := p.life - 3 / 100 }

/-- Embeds the backward splice loop of lines 1096-1113: every particle is
stepped, and exactly those whose life dropped to 0 or below are removed; the
backward splice keeps the relative order of the survivors. -/
def advanceParticles (ps : List Particle) : List Particle :=
  (ps.map stepParticle).filter (fun p => decide (0 < p.life))

/-- Iterated ticks of the particle system with no spawns (bass below the hit
threshold on every tick). -/
def advanceN : ℕ → List Particle → List Particle
  | 0, ps => ps
  | n + 1, ps => advanceParticles (advanceN n ps)

/-! Digital rain layer (Visualizer.tsx, handleResize lines 781-790 and
renderFrame lines 1004-1041). -/

/-- Glyph cell size of the rain grid: 32 in 4K, else 16 (the fontSize of the
source). -/
def glyphCellSize (is4K : Bool) : ℕ :=
  if is4K then 32 else 16

/-- Column count of handleResize, Math.ceil(w / fontSize) computed on
naturals. -/
def rainColumnCount (wpx : ℕ) (is4K : Bool) : ℕ :=
  (wpx + glyphCellSize is4K - 1) / glyphCellSize is4K

/-- Embeds the drop-array reinitialization of handleResize: one drop per
column, each given the offset Math.random() * -100 from the seed stream. -/
def initDrops (wpx : ℕ) (is4K : Bool) (seed : ℕ → ℚ) : List ℚ :=
  (List.range (rainColumnCount wpx is4K)).map (fun i => seed i * (-100))

/-- Loop body of the rain tick over the drops, carrying the column index: a
drop past the bottom edge resets to the top with probability 0.02, and every
drop then falls by bass * 3 + 1. -/
def rainTickAux (cell bass hgt : ℚ) (rand : ℕ → ℚ) :
    ℕ → List ℚ → List ℚ
  | _, [] => []
  | i, d :: ds =>
    let y := d * cell
    let d1 := if hgt < y ∧ 98 / 100 < rand i then 0 else d
    (d1 + (bass * 3 + 1)) :: rainTickAux cell bass hgt rand (i + 1) ds

/-- Embeds the per-tick drop update of renderFrame lines 1016-1035. -/
def rainTick (is4K : Bool) (bass hgt : ℚ) (rand : ℕ → ℚ)
    (drops : List ℚ) : List ℚ :=
  rainTickAux (glyphCellSize is4K : ℚ) bass hgt rand 0 drops

/-! Session control (Visualizer.tsx, stopVisualization lines 744-758 and the
recorder wiring of initializeAudio lines 1182-1246).  The event cascade is
folded into the state transition: stopping the source fires its ended handler,
which stops a recording recorder, whose stop handler triggers exactly one
artifact save. -/

inductive RecPhase
  | recording
  | inactive
deriving DecidableEq

structure SessionState where
  pendingTick : Bool
  sourceActive : Bool
  analyserAttached : Bool
  recorder : Option RecPhase
  saves : ℕ
  playing : Bool
deriving DecidableEq

/-- Embeds the onended handler of line 1242-1246 together with the recorder
onstop handler: a recording recorder becomes inactive and the blob download is
triggered exactly once; any other recorder state is left untouched. -/
def finalizeRecording (s : SessionState) : SessionState :=
  match s.recorder with
  | some RecPhase.recording =>
    { s with recorder := some RecPhase.inactive, saves := s.saves + 1 }
  | _ => s

/-- Embeds stopVisualization: cancel the pending animation frame, stop and
detach the source (firing its ended cascade when one was active), close the
audio context and clear the playing flags. -/
def stopVisualization (s : SessionState) : SessionState :=
  let s1 := { s with pendingTick := false }
  let s2 := if s1.sourceActive then finalizeRecording s1 else s1
  { s2 with sourceActive := false, analyserAttached := false, playing := false }

/-- Scheduling skeleton of renderFrame: with no attached analyser the guard of
line 946 returns without side effects, otherwise the frame is drawn and the
next tick is scheduled. -/
def renderTickSched (s : SessionState) : SessionState :=
  if s.analyserAttached then { s with pendingTick := true } else s

/-! Recording-format selection (Visualizer.tsx, first component variant,
initializeAudio lines 395-441): the preference-ordered list is probed and when
no entry is supported the function alerts and returns before the source is
started. -/

def recTypes : List String :=
  ["video/mp4", "video/webm;codecs=vp9", "video/webm"]

structure ExportOutcome where
  alerted : Bool
  recorderStarted : Bool
  playbackStarted : Bool
deriving DecidableEq

/-- Embeds the export branch of initializeAudio: pick the first supported
format; with none supported, alert and return early, so neither the recorder
nor the audio source is started; otherwise start both. -/
def exportInit (supported : String → Bool) : ExportOutcome :=
  match recTypes.find? supported with
  | none => { alerted := true, recorderStarted := false, playbackStarted := false }
  | some _ => { alerted := false, recorderStarted := true, playbackStarted := true }

/-! Per-tick layer ordering (Visualizer.tsx, renderFrame lines 939-1152),
recorded as the trace of operations one tick emits. -/

inductive RenderOp
  | sampleAnalyser
  | shaderBackground
  | saveCtx
  | shakeTransform
  | compositeBackground
  | rainLayer
  | waveRed
  | waveCyan
  | waveMain
  | spawnParticles
  | particlesAdvanceDraw
  | drawLyric
  | restoreCtx
  | scanlineOverlay
  | scheduleNext
deriving DecidableEq

/-- Trace of one renderFrame tick in source order: analyser sampling, shader
background, context save with the conditional shake transform, background
composite, rain layer, waveform (split into red and cyan copies above the bass
threshold 0.3), particle spawn above 0.5 then advance and draw, the lyric when
one is active, context restore, scanline overlay, and the recursive
scheduling. -/
def renderOps (bass : ℚ) (hasLyric : Bool) : List RenderOp :=
  [RenderOp.sampleAnalyser, RenderOp.shaderBackground, RenderOp.saveCtx]
    ++ (if 2 / 5 < bass then [RenderOp.shakeTransform] else [])
    ++ [RenderOp.compositeBackground, RenderOp.rainLayer]
    ++ (if 3 / 10 < bass then [RenderOp.waveRed, RenderOp.waveCyan]
        else [RenderOp.waveMain])
    ++ (if 1 / 2 < bass then [RenderOp.spawnParticles] else [])
    ++ [RenderOp.particlesAdvanceDraw]
    ++ (if hasLyric then [RenderOp.drawLyric] else [])
    ++ [RenderOp.restoreCtx, RenderOp.scanlineOverlay, RenderOp.scheduleNext]

/-! Concrete sample inputs used to instantiate theorems with hypotheses. -/

/-- A freshly spawned debris particle, as produced by the spawn block of
renderFrame (life starts at 1.0). -/
def demoParticle : Particle :=
  { x := 0, y := 0, w := 3, h := 3, vx := 1, vy := 1, life := 1,
    color := "#fff", kind := ParticleKind.rect, glyph := none }

/-- A one-character lyric line active from 0 to 3 seconds. -/
def demoLine : LyricLine :=
  { time := 0, duration := some 3, text := "a", style := none, emoji := none }

/-- A lyric line carrying an explicit duration of 0 seconds. -/
def zeroDurLine : LyricLine :=
  { time := 0, duration := some 0, text := "x", style := none, emoji := none }

/-- A lyric line active from 1 to 3 seconds. -/
def activeLine1 : LyricLine :=
  { time := 1, duration := some 2, text := "hi", style := none, emoji := none }

/-- A running session with a recording in progress. -/
def demoSession : SessionState :=
  { pendingTick := true, sourceActive := true, analyserAttached := true,
    recorder := some RecPhase.recording, saves := 0, playing := true }

/-! Theorems. -/

theorem take10_sum_le (d : List ℕ) (hlen : 100 < d.length)
    (hbyte : ∀ x ∈ d, x ≤ 255) : (d.take 10).sum ≤ 2550 := by
  have hs := List.sum_le_card_nsmul (d.take 10) 255
    (fun x hx => hbyte x (List.mem_of_mem_take hx))
  rw [smul_eq_mul] at hs
  have hl : (d.take 10).length = 10 := by
    rw [List.length_take]; omega
  omega

theorem mid_sum_le (d : List ℕ) (hlen : 100 < d.length)
    (hbyte : ∀ x ∈ d, x ≤ 255) : ((d.drop 10).take 90).sum ≤ 22950 := by
  have hs := List.sum_le_card_nsmul ((d.drop 10).take 90) 255
    (fun x hx => hbyte x (List.mem_of_mem_drop (List.mem_of_mem_take hx)))
  rw [smul_eq_mul] at hs
  have hl : ((d.drop 10).take 90).length = 90 := by
    rw [List.length_take, List.length_drop]; omega
  omega

theorem high_sum_le (d : List ℕ) (hbyte : ∀ x ∈ d, x ≤ 255) :
    (d.drop 100).sum ≤ (d.length - 100) * 255 := by
  have hs := List.sum_le_card_nsmul (d.drop 100) 255
    (fun x hx => hbyte x (List.mem_of_mem_drop hx))
  rw [smul_eq_mul] at hs
  have hl : (d.drop 100).length = d.length - 100 := List.length_drop ..
  omega

/-- C1: the three band energies of a tick lie in the interval from 0 to 1.1
(they are in fact bounded by 1), and they are deterministic functions of the
byte frequency array alone: equal arrays produce equal band triples. -/
theorem frequencyBands_bounds_det (d : List ℕ) (hlen : 100 < d.length)
    (hbyte : ∀ x ∈ d, x ≤ 255) :
    (0 ≤ (frequencyBands d).bass ∧ (frequencyBands d).bass ≤ 11 / 10) ∧
    (0 ≤ (frequencyBands d).mid ∧ (frequencyBands d).mid ≤ 11 / 10) ∧
    (0 ≤ (frequencyBands d).high ∧ (frequencyBands d).high ≤ 11 / 10) ∧
    (∀ d2 : List ℕ, d = d2 → frequencyBands d = frequencyBands d2) := by
  have hb : ((d.take 10).sum : ℚ) ≤ 2550 := by
    exact_mod_cast take10_sum_le d hlen hbyte
  have hm : (((d.drop 10).take 90).sum : ℚ) ≤ 22950 := by
    exact_mod_cast mid_sum_le d hlen hbyte
  have hDpos : (0 : ℚ) < (d.length : ℚ) - 100 := by
    have : (100 : ℚ) < (d.length : ℚ) := by exact_mod_cast hlen
    linarith
  have hh : ((d.drop 100).sum : ℚ) ≤ ((d.length : ℚ) - 100) * 255 := by
    have h1 : ((d.drop 100).sum : ℚ) ≤ ((d.length - 100 : ℕ) : ℚ) * 255 := by
      exact_mod_cast high_sum_le d hbyte
    rwa [Nat.cast_sub (le_of_lt hlen)] at h1
  refine ⟨⟨?_, ?_⟩, ⟨?_, ?_⟩, ⟨?_, ?_⟩, fun d2 h => by rw [h]⟩
  · unfold frequencyBands
    positivity
  · unfold frequencyBands
    have h1 : (((d.take 10).sum : ℚ) / 10) / 255 ≤ 1 := by
      rw [div_div, div_le_one (by norm_num : (0 : ℚ) < 10 * 255)]
      linarith
    simp only
    linarith
  · unfold frequencyBands
    positivity
  · unfold frequencyBands
    have h1 : ((((d.drop 10).take 90).sum : ℚ) / 90) / 255 ≤ 1 := by
      rw [div_div, div_le_one (by norm_num : (0 : ℚ) < 90 * 255)]
      linarith
    simp only
    linarith
  · unfold frequencyBands
    simp only
    have h0 : (0 : ℚ) ≤ ((d.drop 100).sum : ℚ) := by positivity
    have h1 : (0 : ℚ) ≤ ((d.drop 100).sum : ℚ) / ((d.length : ℚ) - 100) :=
      div_nonneg h0 (le_of_lt hDpos)
    linarith [div_nonneg h1 (by norm_num : (0 : ℚ) ≤ 255)]
  · unfold frequencyBands
    have h1 : (((d.drop 100).sum : ℚ) / ((d.length : ℚ) - 100)) / 255 ≤ 1 := by
      rw [div_div, div_le_one (by positivity)]
      linarith
    simp only
    linarith

/-- C1 witness: an array of 101 bins all at 255 satisfies the hypotheses, and
the theorem yields the bass bound there. -/
theorem frequencyBands_bounds_det_w :
    (100 < (List.replicate 101 (255 : ℕ)).length ∧
      ∀ x ∈ List.replicate 101 (255 : ℕ), x ≤ 255) ∧
    (frequencyBands (List.replicate 101 (255 : ℕ))).bass ≤ 11 / 10 :=
  ⟨⟨by decide, by decide⟩,
    (frequencyBands_bounds_det (List.replicate 101 255)
      (by decide) (by decide)).1.2⟩

/-- C2 counterexample: during preview playback (playing, not exporting) the
dimension resolver ignores the live container size of 800 by 600 and returns
the fixed export size. -/
theorem getDimensions_preview_cex :
    getDimensions true false
        { resolution := ResTier.res1080p, aspect := AspectKind.wide16x9 }
        (some (800, 600)) = (1920, 1080) ∧
    getDimensions true false
        { resolution := ResTier.res1080p, aspect := AspectKind.wide16x9 }
        (some (800, 600)) ≠ (800, 600) := by
  exact ⟨rfl, by decide⟩

/-- C2 (amended): the resolver returns the fixed export size whenever a run is
active — for every playing run regardless of the exporting flag, and for every
exporting run regardless of the playing flag, which together cover all active
states including preview playback — for each of the four configurations and
any container, and it returns the live container size only when the session is
idle (neither playing nor exporting). -/
theorem getDimensions_spec :
    (∀ e c, getDimensions true e
      { resolution := ResTier.res1080p, aspect := AspectKind.wide16x9 } c
        = (1920, 1080)) ∧
    (∀ p c, getDimensions p true
      { resolution := ResTier.res1080p, aspect := AspectKind.wide16x9 } c
        = (1920, 1080)) ∧
    (∀ e c, getDimensions true e
      { resolution := ResTier.res1080p, aspect := AspectKind.tall9x16 } c
        = (1080, 1920)) ∧
    (∀ p c, getDimensions p true
      { resolution := ResTier.res1080p, aspect := AspectKind.tall9x16 } c
        = (1080, 1920)) ∧
    (∀ e c, getDimensions true e
      { resolution := ResTier.res4K, aspect := AspectKind.wide16x9 } c
        = (3840, 2160)) ∧
    (∀ p c, getDimensions p true
      { resolution := ResTier.res4K, aspect := AspectKind.wide16x9 } c
        = (3840, 2160)) ∧
    (∀ e c, getDimensions true e
      { resolution := ResTier.res4K, aspect := AspectKind.tall9x16 } c
        = (2160, 3840)) ∧
    (∀ p c, getDimensions p true
      { resolution := ResTier.res4K, aspect := AspectKind.tall9x16 } c
        = (2160, 3840)) ∧
    (∀ cfg cw ch, getDimensions false false cfg (some (cw, ch)) = (cw, ch)) :=
  ⟨fun e c => by cases e <;> rfl,
   fun p c => by cases p <;> rfl,
   fun e c => by cases e <;> rfl,
   fun p c => by cases p <;> rfl,
   fun e c => by cases e <;> rfl,
   fun p c => by cases p <;> rfl,
   fun e c => by cases e <;> rfl,
   fun p c => by cases p <;> rfl,
   fun cfg cw ch => rfl⟩

/-- C7: after stopVisualization the pending tick is cancelled, a subsequently
invoked tick is a no-op, stopping is idempotent, a capture in progress at the
time of the stop is finalized into exactly one artifact-save trigger, the stop
never triggers more than one save, and with no recording in progress it
triggers none. -/
theorem stopVisualization_spec (s : SessionState) :
    (stopVisualization s).pendingTick = false ∧
    renderTickSched (stopVisualization s) = stopVisualization s ∧
    stopVisualization (stopVisualization s) = stopVisualization s ∧
    (s.sourceActive = true ∧ s.recorder = some RecPhase.recording →
      (stopVisualization s).saves = s.saves + 1) ∧
    (stopVisualization s).saves ≤ s.saves + 1 ∧
    (s.recorder = none ∨ s.recorder = some RecPhase.inactive →
      (stopVisualization s).saves = s.saves) := by
  obtain ⟨pt, sa, aa, rc, sv, pl⟩ := s
  cases sa <;> rcases rc with _ | r <;> try cases r
  all_goals
    simp [stopVisualization, finalizeRecording, renderTickSched]

/-- C7 witness: stopping the sample running session with a recording in
progress produces exactly one save trigger. -/
theorem stopVisualization_spec_w :
    (demoSession.sourceActive = true ∧
      demoSession.recorder = some RecPhase.recording) ∧
    (stopVisualization demoSession).saves = demoSession.saves + 1 :=
  ⟨⟨rfl, rfl⟩, (stopVisualization_spec demoSession).2.2.2.1 ⟨rfl, rfl⟩⟩

/-- C8 counterexample: with no supported recording format the export path
alerts and returns early, so playback does not proceed, contradicting the
claim that playback still proceeds without capture. -/
theorem exportInit_unsupported_cex :
    exportInit (fun _ => false) =
      { alerted := true, recorderStarted := false, playbackStarted := false } ∧
    (exportInit (fun _ => false)).playbackStarted ≠ true := by
  exact ⟨rfl, by decide⟩

/-- C8 (amended): if none of the preference-ordered recording formats is
supported, starting an export reports the unsupported-capture condition and no
recording is started, but the export run is aborted before the audio source is
started, so playback does not proceed either. -/
theorem exportInit_unsupported (sup : String → Bool)
    (h : ∀ ty ∈ recTypes, sup ty = false) :
    exportInit sup =
      { alerted := true, recorderStarted := false, playbackStarted := false } := by
  unfold exportInit
  rw [List.find?_eq_none.mpr (fun x hx => by simp [h x hx])]

/-- C8 witness: the always-unsupported runtime satisfies the hypothesis and
yields the aborted outcome. -/
theorem exportInit_unsupported_w :
    exportInit (fun _ => false) =
      { alerted := true, recorderStarted := false, playbackStarted := false } :=
  exportInit_unsupported (fun _ => false) (fun ty _ => rfl)

theorem mem_advanceParticles {ps : List Particle} {p : Particle}
    (h : p ∈ advanceParticles ps) :
    0 < p.life ∧ ∃ q ∈ ps, p.life = q.life - 3 / 100 := by
  unfold advanceParticles at h
  obtain ⟨hm, hf⟩ := List.mem_filter.mp h
  obtain ⟨q, hq, hqe⟩ := List.mem_map.mp hm
  refine ⟨by simpa using hf, q, hq, ?_⟩
  rw [← hqe]
  simp [stepParticle]

theorem length_advanceParticles (ps : List Particle) :
    (advanceParticles ps).length ≤ ps.length := by
  unfold advanceParticles
  calc ((ps.map stepParticle).filter (fun p => decide (0 < p.life))).length
      ≤ (ps.map stepParticle).length := List.length_filter_le _ _
    _ = ps.length := List.length_map ..

theorem mem_advanceN {n : ℕ} {ps : List Particle} {p : Particle}
    (h : p ∈ advanceN n ps) :
    ∃ q ∈ ps, p.life = q.life - (n : ℚ) * (3 / 100) := by
  induction n generalizing p with
  | zero =>
    exact ⟨p, h, by push_cast; ring⟩
  | succ n ih =>
    obtain ⟨_, q, hq, he⟩ := mem_advanceParticles h
    obtain ⟨r, hr, he2⟩ := ih hq
    exact ⟨r, hr, by rw [he, he2]; push_cast; ring⟩

/-- C4: with no spawns the particle count is monotonically non-increasing tick
by tick, and any starting pool of particles whose lives are at most the spawn
value 1.0 is empty after 34 ticks of decay by 0.03. -/
theorem particles_decay_to_zero (ps : List Particle) :
    (∀ n, (advanceN (n + 1) ps).length ≤ (advanceN n ps).length) ∧
    ((∀ p ∈ ps, p.life ≤ 1) → advanceN 34 ps = []) := by
  constructor
  · intro n
    exact length_advanceParticles _
  · intro hall
    rw [List.eq_nil_iff_forall_not_mem]
    intro p hp
    have hp34 : p ∈ advanceParticles (advanceN 33 ps) := hp
    have hpos : 0 < p.life := (mem_advanceParticles hp34).1
    obtain ⟨q, hq, he⟩ := mem_advanceN hp
    have hle : q.life ≤ 1 := hall q hq
    rw [he] at hpos
    norm_num at hpos
    linarith

/-- C4 witness: a single freshly spawned particle has life at most 1 and the
pool is gone after 34 spawn-free ticks. -/
theorem particles_decay_to_zero_w :
    (∀ p ∈ [demoParticle], p.life ≤ 1) ∧ advanceN 34 [demoParticle] = [] :=
  ⟨by decide, (particles_decay_to_zero [demoParticle]).2 (by decide)⟩

theorem ceilDiv_eq_nat_ceil (w c : ℕ) (hc : 0 < c) :
    (w + c - 1) / c = ⌈(w : ℚ) / (c : ℚ)⌉₊ := by
  rcases Nat.eq_zero_or_pos w with rfl | hw
  · rw [Nat.div_eq_of_lt (by omega : 0 + c - 1 < c)]
    simp
  · have hn1 : 1 ≤ (w + c - 1) / c := (Nat.one_le_div_iff hc).mpr (by omega)
    rw [eq_comm, Nat.ceil_eq_iff (by omega : (w + c - 1) / c ≠ 0)]
    have hmod := Nat.div_add_mod (w + c - 1) c
    have hmlt : (w + c - 1) % c < c := Nat.mod_lt _ hc
    have hwc : 1 ≤ w + c := by omega
    have hKQ : (c : ℚ) * (((w + c - 1) / c : ℕ) : ℚ) +
        (((w + c - 1) % c : ℕ) : ℚ) = (w : ℚ) + (c : ℚ) - 1 := by
      have h2 : ((c * ((w + c - 1) / c) + (w + c - 1) % c : ℕ) : ℚ) =
          ((w + c - 1 : ℕ) : ℚ) := Nat.cast_inj.mpr hmod
      push_cast [Nat.cast_sub hwc] at h2
      linarith [h2]
    have hmQ2 : (((w + c - 1) % c : ℕ) : ℚ) ≤ (c : ℚ) - 1 := by
      have hx : (w + c - 1) % c + 1 ≤ c := hmlt
      have hx2 : (((w + c - 1) % c + 1 : ℕ) : ℚ) ≤ ((c : ℕ) : ℚ) :=
        Nat.cast_le.mpr hx
      push_cast at hx2
      linarith
    have hm0 : (0 : ℚ) ≤ (((w + c - 1) % c : ℕ) : ℚ) := Nat.cast_nonneg _
    have hwQ : (1 : ℚ) ≤ (w : ℚ) := by exact_mod_cast hw
    have hcQ : (0 : ℚ) < (c : ℚ) := by exact_mod_cast hc
    constructor
    · rw [Nat.cast_sub hn1, lt_div_iff₀ hcQ]
      nlinarith [hKQ, hm0]
    · rw [div_le_iff₀ hcQ]
      nlinarith [hKQ, hmQ2]

theorem rainTickAux_length (cell bass hgt : ℚ) (rand : ℕ → ℚ) (i : ℕ)
    (ds : List ℚ) : (rainTickAux cell bass hgt rand i ds).length = ds.length := by
  induction ds generalizing i with
  | nil => rfl
  | cons d ds ih => simp [rainTickAux, ih]

/-- C6: the drop array is created with exactly ceil of width over glyph cell
size entries (cell size 32 in 4K, 16 otherwise), the reinitialized offsets are
negative (above -100) for any nonzero random draws, and a render tick never
changes the number of columns. -/
theorem rainColumns_spec (wpx : ℕ) (is4K : Bool) (seed : ℕ → ℚ) :
    (initDrops wpx is4K seed).length = rainColumnCount wpx is4K ∧
    rainColumnCount wpx is4K = ⌈(wpx : ℚ) / (glyphCellSize is4K : ℚ)⌉₊ ∧
    glyphCellSize true = 32 ∧ glyphCellSize false = 16 ∧
    ((∀ i, 0 < seed i ∧ seed i < 1) →
      ∀ d ∈ initDrops wpx is4K seed, -100 < d ∧ d < 0) ∧
    (∀ bass hgt rand drops,
      (rainTick is4K bass hgt rand drops).length = drops.length) := by
  refine ⟨?_, ?_, rfl, rfl, ?_, ?_⟩
  · simp [initDrops]
  · exact ceilDiv_eq_nat_ceil wpx (glyphCellSize is4K)
      (by cases is4K <;> norm_num [glyphCellSize])
  · intro hseed d hd
    obtain ⟨i, hi, rfl⟩ := List.mem_map.mp hd
    obtain ⟨h0, h1⟩ := hseed i
    constructor <;> nlinarith
  · intro bass hgt rand drops
    exact rainTickAux_length _ _ _ _ _ _

/-- C6 witness: at width 1920 in non-4K mode with all random draws at one
half, the offset -50 is a member of the drop array and lies strictly between
-100 and 0. -/
theorem rainColumns_spec_w :
    (-50 : ℚ) ∈ initDrops 1920 false (fun _ => 1 / 2) ∧
    (-100 < (-50 : ℚ) ∧ (-50 : ℚ) < 0) :=
  ⟨by with_unfolding_all decide,
    (rainColumns_spec 1920 false (fun _ => 1 / 2)).2.2.2.2.1
      (fun i => ⟨by with_unfolding_all decide, by with_unfolding_all decide⟩)
      (-50) (by with_unfolding_all decide)⟩

/-- C5 counterexample: a line with an explicit duration of 0 is displayed by
the code for 3 seconds because 0 is falsy in JS, while under the claim (default
only for a missing duration) its display window is empty and nothing would be
drawn. -/
theorem findActive_zero_duration_cex :
    findActive [zeroDurLine] 0 = some (0, zeroDurLine) ∧
    ¬ specIsActive zeroDurLine 0 := by
  exact ⟨by with_unfolding_all decide, by with_unfolding_all decide⟩

/-- C5 (amended): the displayed lyric line is the first line in sequence order
whose window time to time plus duration contains the elapsed time, where a
duration that is absent or equal to 0 defaults to 3 seconds; when no line
qualifies, none is selected and nothing is drawn. -/
theorem findActive_spec (ls : List LyricLine) (t : ℚ) :
    (∀ i l, findActive ls t = some (i, l) →
      ls[i]? = some l ∧ isActive l t ∧
      ∀ j, j < i → ∀ l2, ls[j]? = some l2 → ¬ isActive l2 t) ∧
    (findActive ls t = none ↔ ∀ l ∈ ls, ¬ isActive l t) := by
  induction ls with
  | nil =>
    constructor
    · intro i l h
      simp [findActive] at h
    · simp [findActive]
  | cons hd tl ih =>
    constructor
    · intro i l h
      unfold findActive at h
      by_cases hhd : isActive hd t
      · rw [if_pos hhd] at h
        obtain ⟨hi, hl⟩ : 0 = i ∧ hd = l := by simpa using h
        subst hi
        subst hl
        exact ⟨by simp, hhd, fun j hj => absurd hj (Nat.not_lt_zero j)⟩
      · rw [if_neg hhd] at h
        obtain ⟨⟨i0, l0⟩, hfa, heq⟩ := Option.map_eq_some'.mp h
        obtain ⟨hi, hl⟩ : i0 + 1 = i ∧ l0 = l := by simpa using heq
        subst hi
        subst hl
        obtain ⟨h1, h2, h3⟩ := ih.1 i0 l0 hfa
        refine ⟨by simpa using h1, h2, ?_⟩
        intro j hj l2 hl2
        cases j with
        | zero =>
          obtain hl2' : hd = l2 := by simpa using hl2
          subst hl2'
          exact hhd
        | succ k =>
          exact h3 k (by omega) l2 (by simpa using hl2)
    · unfold findActive
      by_cases hhd : isActive hd t
      · rw [if_pos hhd]
        simp only [List.forall_mem_cons]
        constructor
        · intro h
          exact absurd h (by simp)
        · intro h
          exact absurd hhd h.1
      · rw [if_neg hhd, Option.map_eq_none', ih.2, List.forall_mem_cons]
        simp [hhd]

/-- C5 witness: evaluating the selector at time 2 on a line running from 1 to
3 picks that line, and its window indeed contains the time. -/
theorem findActive_spec_w :
    findActive [activeLine1] 2 = some (0, activeLine1) ∧
    isActive activeLine1 2 :=
  ⟨by with_unfolding_all decide,
    ((findActive_spec [activeLine1] 2).1 0 activeLine1
      (by with_unfolding_all decide)).2.1⟩

/-- C3 counterexample: on the first active tick of a one-character line the
counter is reset and immediately advanced to 1.5, which exceeds the text
length 1, contradicting the claim that the counter never exceeds the length. -/
theorem lyricCounter_exceeds_length_cex :
    (lyricStep [demoLine] 0 { idx := -1, decoded := 0 }).decoded = 3 / 2 ∧
    ((demoLine.text.length : ℚ)) <
      (lyricStep [demoLine] 0 { idx := -1, decoded := 0 }).decoded := by
  exact ⟨by with_unfolding_all decide, by with_unfolding_all decide⟩

/-- C3 (amended): on ticks with no active line the cursor is untouched; while
the active index is stable the counter is monotonically non-decreasing; on an
index change the counter is reset to 0 and then advanced within the same tick,
ending at most at the reveal step 1.5; and the counter always stays strictly
below the active text length plus one reveal step (rather than below the
length itself, which the reset tick of the counterexample exceeds). -/
theorem lyricStep_cursor_props (ls : List LyricLine) (t : ℚ) (s : LyricCursor) :
    (findActive ls t = none → lyricStep ls t s = s) ∧
    (∀ i l, findActive ls t = some (i, l) →
      (s.idx = (i : ℤ) → s.decoded ≤ (lyricStep ls t s).decoded) ∧
      (s.idx ≠ (i : ℤ) →
        (lyricStep ls t s).idx = (i : ℤ) ∧
        (lyricStep ls t s).decoded ≤ 3 / 2) ∧
      ((s.idx = (i : ℤ) → s.decoded < (l.text.length : ℚ) + 3 / 2) →
        (lyricStep ls t s).decoded < (l.text.length : ℚ) + 3 / 2)) := by
  constructor
  · intro h
    unfold lyricStep
    rw [h]
  · intro i l h
    unfold lyricStep
    rw [h]
    by_cases hidx : s.idx = (i : ℤ)
    · by_cases hdec : s.decoded < (l.text.length : ℚ)
      · refine ⟨fun _ => ?_, fun hne => absurd hidx hne, fun hc => ?_⟩
        · simp [hidx, hdec] <;> linarith
        · have hb := hc hidx
          simp [hidx, hdec] <;> linarith
      · refine ⟨fun _ => ?_, fun hne => absurd hidx hne, fun hc => ?_⟩
        · simp [hidx, hdec] <;> linarith
        · have hb := hc hidx
          simp [hidx, hdec] <;> linarith
    · have h0 : (0 : ℚ) ≤ (l.text.length : ℚ) := Nat.cast_nonneg _
      by_cases hdec : (0 : ℚ) < (l.text.length : ℚ)
      · refine ⟨fun he => absurd he hidx, fun _ => ⟨?_, ?_⟩, fun _ => ?_⟩
        · simp [hidx, hdec] <;> linarith
        · simp [hidx, hdec] <;> linarith
        · simp [hidx, hdec] <;> linarith
      · refine ⟨fun he => absurd he hidx, fun _ => ⟨?_, ?_⟩, fun _ => ?_⟩
        · simp [hidx, hdec] <;> linarith
        · simp [hidx, hdec] <;> linarith
        · simp [hidx, hdec] <;> linarith

/-- C3 witness: with a stable index on the one-character demo line, the counter
stays below the length plus one reveal step. -/
theorem lyricStep_cursor_props_w :
    findActive [demoLine] 0 = some (0, demoLine) ∧
    (lyricStep [demoLine] 0 { idx := 0, decoded := 0 }).decoded <
      (demoLine.text.length : ℚ) + 3 / 2 :=
  ⟨by with_unfolding_all decide,
    ((lyricStep_cursor_props [demoLine] 0 { idx := 0, decoded := 0 }).2 0
      demoLine (by with_unfolding_all decide)).2.2
      (fun _ => by with_unfolding_all decide)⟩

theorem intercalate_space_cons (a : List Char) (L : List (List Char))
    (h : L ≠ []) :
    [' '].intercalate (a :: L) = a ++ [' '] ++ [' '].intercalate L := by
  cases L with
  | nil => exact absurd rfl h
  | cons b M => simp [List.intercalate, List.intersperse]

theorem intercalate_space_glue (a b : List Char) (L : List (List Char)) :
    [' '].intercalate ((a ++ [' '] ++ b) :: L) =
      a ++ [' '] ++ [' '].intercalate (b :: L) := by
  cases L with
  | nil => simp [List.intercalate, List.intersperse]
  | cons c M => simp [List.intercalate, List.intersperse]

theorem wrapAux_ne_nil (mw : List Char → ℚ) (maxW : ℚ) (cur : List Char)
    (ws : List (List Char)) : wrapAux mw maxW cur ws ≠ [] := by
  induction ws generalizing cur with
  | nil => simp [wrapAux]
  | cons wd rest ih =>
    unfold wrapAux
    by_cases hb : mw (cur ++ [' '] ++ wd) < maxW
    · rw [if_pos hb]
      exact ih _
    · rw [if_neg hb]
      simp

theorem intercalate_wrapAux (mw : List Char → ℚ) (maxW : ℚ) (cur : List Char)
    (ws : List (List Char)) :
    [' '].intercalate (wrapAux mw maxW cur ws) =
      [' '].intercalate (cur :: ws) := by
  induction ws generalizing cur with
  | nil => rfl
  | cons wd rest ih =>
    unfold wrapAux
    by_cases hb : mw (cur ++ [' '] ++ wd) < maxW
    · rw [if_pos hb, ih, intercalate_space_glue,
        ← intercalate_space_cons cur (wd :: rest) (by simp)]
    · rw [if_neg hb,
        intercalate_space_cons cur _ (wrapAux_ne_nil mw maxW wd rest), ih,
        ← intercalate_space_cons cur (wd :: rest) (by simp)]

/-- C10: the greedy word wrapper always returns at least one line, returns one
empty line on the empty text, and rejoining its lines with single spaces
restores the text exactly, so it never splits inside a word and preserves word
order; and a single word wider than the maximum width is returned unchanged as
a line whose measured width exceeds the maximum, as witnessed by a six-letter
word at width 3. -/
theorem wrapText_props :
    (∀ mw text maxW, 1 ≤ (wrapText mw text maxW).length) ∧
    (∀ mw maxW, wrapText mw [] maxW = [[]]) ∧
    (∀ mw text maxW, [' '].intercalate (wrapText mw text maxW) = text) ∧
    (wrapText (fun s => (s.length : ℚ)) ['a', 'b', 'c', 'd', 'e', 'f'] 3 =
        [['a', 'b', 'c', 'd', 'e', 'f']] ∧
      (3 : ℚ) <
        (fun s : List Char => (s.length : ℚ)) ['a', 'b', 'c', 'd', 'e', 'f']) := by
  refine ⟨?_, ?_, ?_, ?_, ?_⟩
  · intro mw text maxW
    unfold wrapText
    cases h : text.splitOn ' ' with
    | nil => simp
    | cons wd ws => exact List.length_pos.mpr (wrapAux_ne_nil mw maxW wd ws)
  · intro mw maxW
    rfl
  · intro mw text maxW
    unfold wrapText
    cases h : text.splitOn ' ' with
    | nil => exact absurd h (List.splitOnP_ne_nil _ _)
    | cons wd ws =>
      rw [intercalate_wrapAux]
      have h2 := List.intercalate_splitOn text ' '
      rw [h] at h2
      exact h2
  · decide
  · decide

/-- C9: within one tick the layers are emitted in the fixed order of the
source — analyser sample, shader background, context save, background
composite, rain layer, waveform, particles, lyric, context restore, scanline
overlay, next-tick scheduling — the waveform is split into red and cyan copies
exactly above bass 0.3, spawning occurs exactly above bass 0.5, the shake
transform is applied exactly above bass 0.4 and only between the save and the
background composite, and the scanline overlay comes strictly after the
restore, so scanlines stay screen-stable while the shake affects only the
enclosed layers. -/
theorem renderOps_order (bass : ℚ) (hasLyric : Bool) :
    ((renderOps bass hasLyric).indexOf RenderOp.sampleAnalyser <
      (renderOps bass hasLyric).indexOf RenderOp.shaderBackground) ∧
    ((renderOps bass hasLyric).indexOf RenderOp.shaderBackground <
      (renderOps bass hasLyric).indexOf RenderOp.saveCtx) ∧
    ((renderOps bass hasLyric).indexOf RenderOp.saveCtx <
      (renderOps bass hasLyric).indexOf RenderOp.compositeBackground) ∧
    ((renderOps bass hasLyric).indexOf RenderOp.compositeBackground <
      (renderOps bass hasLyric).indexOf RenderOp.rainLayer) ∧
    ((renderOps bass hasLyric).indexOf RenderOp.rainLayer <
      (renderOps bass hasLyric).indexOf RenderOp.particlesAdvanceDraw) ∧
    ((renderOps bass hasLyric).indexOf RenderOp.particlesAdvanceDraw <
      (renderOps bass hasLyric).indexOf RenderOp.restoreCtx) ∧
    ((renderOps bass hasLyric).indexOf RenderOp.restoreCtx <
      (renderOps bass hasLyric).indexOf RenderOp.scanlineOverlay) ∧
    ((renderOps bass hasLyric).indexOf RenderOp.scanlineOverlay <
      (renderOps bass hasLyric).indexOf RenderOp.scheduleNext) ∧
    (if 2 / 5 < bass then
      (renderOps bass hasLyric).indexOf RenderOp.saveCtx <
        (renderOps bass hasLyric).indexOf RenderOp.shakeTransform ∧
      (renderOps bass hasLyric).indexOf RenderOp.shakeTransform <
        (renderOps bass hasLyric).indexOf RenderOp.compositeBackground
     else RenderOp.shakeTransform ∉ renderOps bass hasLyric) ∧
    (if 3 / 10 < bass then
      (renderOps bass hasLyric).indexOf RenderOp.rainLayer <
        (renderOps bass hasLyric).indexOf RenderOp.waveRed ∧
      (renderOps bass hasLyric).indexOf RenderOp.waveRed <
        (renderOps bass hasLyric).indexOf RenderOp.waveCyan ∧
      (renderOps bass hasLyric).indexOf RenderOp.waveCyan <
        (renderOps bass hasLyric).indexOf RenderOp.particlesAdvanceDraw ∧
      RenderOp.waveMain ∉ renderOps bass hasLyric
     else
      (renderOps bass hasLyric).indexOf RenderOp.rainLayer <
        (renderOps bass hasLyric).indexOf RenderOp.waveMain ∧
      (renderOps bass hasLyric).indexOf RenderOp.waveMain <
        (renderOps bass hasLyric).indexOf RenderOp.particlesAdvanceDraw ∧
      RenderOp.waveRed ∉ renderOps bass hasLyric) ∧
    (if 1 / 2 < bass then
      (renderOps bass hasLyric).indexOf RenderOp.spawnParticles <
        (renderOps bass hasLyric).indexOf RenderOp.particlesAdvanceDraw
     else RenderOp.spawnParticles ∉ renderOps bass hasLyric) ∧
    (if hasLyric then
      (renderOps bass hasLyric).indexOf RenderOp.particlesAdvanceDraw <
        (renderOps bass hasLyric).indexOf RenderOp.drawLyric ∧
      (renderOps bass hasLyric).indexOf RenderOp.drawLyric <
        (renderOps bass hasLyric).indexOf RenderOp.restoreCtx
     else RenderOp.drawLyric ∉ renderOps bass hasLyric) := by
  by_cases h1 : 2 / 5 < bass <;> by_cases h2 : 3 / 10 < bass <;>
    by_cases h3 : 1 / 2 < bass <;> cases hasLyric <;>
    simp only [renderOps, h1, h2, h3, if_true, if_false] <;> decide

end Vajfua
